import Mathlib

/-!
Verification development for the AI-powered eye-sensor attendance system.

The development shallowly embeds the algorithmic core of the repository:

* `iris_engine.py` — iris templates (`IrisTemplate`), template creation
  (`create_iris_code`, shape structure) and rotation-tolerant masked Hamming
  comparison (`compare_iris_codes`);
* `backend.py` — the blink-based liveness engine (`_check_liveness_internal`)
  and the verification state machine (`run_attendance_check`,
  `reset_workflow`);
* `vision_utils.py` — the alternative blink detector (`check_blink`).

Numpy bool arrays are embedded as `List Bool`; float arithmetic on means and
thresholds is embedded as exact rational arithmetic over `ℚ`; numpy's
`np.roll` is embedded via `List.rotate`.  External libraries (OpenCV, numpy
convolution, face_recognition, wall-clock time) appear only as explicitly
quantified inputs; everything after their outputs is translated from the
repository source.
-/

/-! ## Iris templates (`iris_engine.py`) -/

/-- Structure `IrisTemplate` from `iris_engine.py`: a binary code and a same-length
validity mask, both stored flattened (1-D). -/
structure IrisTemplate where
  code : List Bool
  mask : List Bool
deriving DecidableEq

/-- Number of `True` entries of a bool list (numpy `arr.sum()` on bools). -/
def countTrue : List Bool → Nat
  | [] => 0
  | b :: l => (if b then 1 else 0) + countTrue l

/-- Embedding of `np.roll(l, s)`: circular shift such that `result[i] = l[(i - s) mod n]`.
`List.rotate` moves the first `k` elements to the back, i.e.
`(l.rotate k)[i] = l[(i + k) mod n]`, so rolling by `s` is rotating by
`(-s) mod n`. -/
def roll (l : List Bool) (s : Int) : List Bool :=
  l.rotate ((-s % (l.length : Int)).toNat)

/-- Elementwise mask conjunction `mask1 & mask2` (numpy `&` on bool arrays). -/
def maskInter (m1 m2 : List Bool) : List Bool :=
  List.zipWith and m1 m2

/-- Count `(mask1 & mask2).sum()`: number of positions valid in both masks. -/
def validCount (m1 m2 : List Bool) : Nat :=
  countTrue (maskInter m1 m2)

/-- The code of the second template after the loop's shift `s`
(`code2` itself when `s == 0`, else `np.roll(code2, s)`). -/
def rolledCode (t2 : IrisTemplate) (s : Int) : List Bool :=
  if s = 0 then t2.code else roll t2.code s

/-- The mask of the second template after the loop's shift `s`
(`mask2` itself when `s == 0`, else `np.roll(mask2, s)`). -/
def rolledMask (t2 : IrisTemplate) (s : Int) : List Bool :=
  if s = 0 then t2.mask else roll t2.mask s

/-- Number of disagreeing bits among the positions marked valid:
`np.logical_xor(code1[valid], c2s[valid]).sum()`. -/
def disagreeCount (c1 c2 m : List Bool) : Nat :=
  countTrue (List.zipWith and m (List.zipWith Bool.xor c1 c2))

/-- The masked Hamming distance that the loop body of `compare_iris_codes`
evaluates at shift `s`: `none` when the shift is skipped because the mask
intersection has fewer than 50 valid bits (`continue`), otherwise the mean
of the XOR over valid bits as an exact rational. -/
def hdAt (t1 t2 : IrisTemplate) (s : Int) : Option ℚ :=
  let m2s := rolledMask t2 s
  let v := validCount t1.mask m2s
  if v < 50 then none
  else some (mkRat (disagreeCount t1.code (rolledCode t2 s) (maskInter t1.mask m2s)) v)

/-- One iteration of the shift loop of `compare_iris_codes`: keep the best
`(distance, shift)` pair, updating only on a strictly smaller distance. -/
def compareStep (t1 t2 : IrisTemplate) (best : ℚ × Int) (s : Int) : ℚ × Int :=
  match hdAt t1 t2 s with
  | none => best
  | some hd => if hd < best.1 then (hd, s) else best

/-- The list `range(-rotations, rotations + 1)` in ascending order. -/
def shiftRange (rotations : Nat) : List Int :=
  (List.range (2 * rotations + 1)).map fun (j : Nat) => ((j : Int) - (rotations : Int))

/-- Function `compare_iris_codes` from `iris_engine.py`: early `(1.0, 0)` return when
the unshifted mask intersection is empty, otherwise the best masked Hamming
distance (and its shift) over all shifts in `-rotations..rotations`, starting
from `(1.0, 0)`. -/
def compare_iris_codes (t1 t2 : IrisTemplate) (rotations : Nat) : ℚ × Int :=
  if validCount t1.mask t2.mask = 0 then (1, 0)
  else (shiftRange rotations).foldl (compareStep t1 t2) (1, 0)

/-- Function `is_match` from `iris_engine.py`. -/
def is_match (hamming_distance : ℚ) (threshold : ℚ) : Bool :=
  hamming_distance ≤ threshold

/-- A template with code and mask circularly shifted by `k` (`np.roll`). -/
def rollTemplate (t : IrisTemplate) (k : Int) : IrisTemplate :=
  ⟨roll t.code k, roll t.mask k⟩

/-! ### Basic lemmas about counts, masks and rolls -/

lemma countTrue_zipWith_and_le (a b : List Bool) :
    countTrue (List.zipWith and a b) ≤ countTrue a := by
  induction a generalizing b with
  | nil => simp [countTrue]
  | cons x xs ih =>
    cases b with
    | nil => simp [countTrue]
    | cons y ys =>
      have h := ih ys
      cases x <;> cases y <;> simp [countTrue] <;> omega

lemma maskInter_self (m : List Bool) : maskInter m m = m := by
  induction m with
  | nil => rfl
  | cons x xs ih =>
    have ih' : List.zipWith and xs xs = xs := ih
    simp [maskInter, ih']

lemma zipWith_xor_self (c : List Bool) :
    List.zipWith Bool.xor c c = List.replicate c.length false := by
  induction c with
  | nil => rfl
  | cons x xs ih => simp [List.replicate_succ, Bool.xor_self, ih]

lemma countTrue_and_replicate_false (m : List Bool) (n : Nat) :
    countTrue (List.zipWith and m (List.replicate n false)) = 0 := by
  induction m generalizing n with
  | nil => simp [countTrue]
  | cons x xs ih =>
    cases n with
    | zero => simp [countTrue]
    | succ n' => simp [countTrue, List.replicate_succ, ih]

lemma countTrue_and_xor_self (m c : List Bool) :
    countTrue (List.zipWith and m (List.zipWith Bool.xor c c)) = 0 := by
  rw [zipWith_xor_self]
  exact countTrue_and_replicate_false m c.length

lemma length_roll (l : List Bool) (s : Int) : (roll l s).length = l.length := by
  simp [roll]

lemma roll_zero (l : List Bool) : roll l 0 = l := by
  simp [roll]

lemma roll_roll_neg (l : List Bool) (k : Int) : roll (roll l k) (-k) = l := by
  rcases Nat.eq_zero_or_pos l.length with h0 | hpos
  · have hnil : l = [] := List.eq_nil_of_length_eq_zero h0
    subst hnil
    simp [roll]
  · unfold roll
    rw [List.length_rotate, List.rotate_rotate, neg_neg]
    have hnz : ((l.length : Int)) ≠ 0 := by
      exact_mod_cast Nat.pos_iff_ne_zero.mp hpos
    have hx : 0 ≤ -k % (l.length : Int) := Int.emod_nonneg _ hnz
    have hy : 0 ≤ k % (l.length : Int) := Int.emod_nonneg _ hnz
    have hsum : (-k % (l.length : Int) + k % (l.length : Int)) % (l.length : Int) = 0 := by
      rw [← Int.add_emod]
      simp
    have htot : ((-k % (l.length : Int)).toNat + (k % (l.length : Int)).toNat) % l.length = 0 := by
      have hcast : (((-k % (l.length : Int)).toNat + (k % (l.length : Int)).toNat : Nat) : Int)
          = -k % (l.length : Int) + k % (l.length : Int) := by
        omega
      have h2 : ((((-k % (l.length : Int)).toNat + (k % (l.length : Int)).toNat : Nat) : Int))
          % (l.length : Int) = 0 := by
        rw [hcast]; exact hsum
      omega
    calc l.rotate ((-k % (l.length : Int)).toNat + (k % (l.length : Int)).toNat)
        = l.rotate (((-k % (l.length : Int)).toNat + (k % (l.length : Int)).toNat) % l.length) :=
          (List.rotate_mod _ _).symm
      _ = l.rotate 0 := by rw [htot]
      _ = l := List.rotate_zero l

/-! ### Loop invariants of the shift search -/

lemma hdAt_of_lt_50 {t1 t2 : IrisTemplate} {s : Int}
    (h : validCount t1.mask (rolledMask t2 s) < 50) : hdAt t1 t2 s = none := by
  unfold hdAt
  simp [h]

lemma mkRat_natCast_div (n d : Nat) : (mkRat n d : ℚ) = (n : ℚ) / (d : ℚ) := by
  rw [Rat.mkRat_eq_div]
  push_cast
  ring

lemma hdAt_eq_mean {t1 t2 : IrisTemplate} {s : Int}
    (h : ¬ validCount t1.mask (rolledMask t2 s) < 50) :
    hdAt t1 t2 s = some ((disagreeCount t1.code (rolledCode t2 s)
        (maskInter t1.mask (rolledMask t2 s)) : ℚ)
        / (validCount t1.mask (rolledMask t2 s) : ℚ)) := by
  unfold hdAt
  simp only [h, if_false, mkRat_natCast_div]

lemma hdAt_bounds {t1 t2 : IrisTemplate} {s : Int} {q : ℚ}
    (h : hdAt t1 t2 s = some q) : 0 ≤ q ∧ q ≤ 1 := by
  by_cases hv : validCount t1.mask (rolledMask t2 s) < 50
  · rw [hdAt_of_lt_50 hv] at h
    exact absurd h (by simp)
  · rw [hdAt_eq_mean hv] at h
    have hle : disagreeCount t1.code (rolledCode t2 s)
        (maskInter t1.mask (rolledMask t2 s))
        ≤ validCount t1.mask (rolledMask t2 s) :=
      countTrue_zipWith_and_le _ _
    have hvpos : (0 : ℚ) < (validCount t1.mask (rolledMask t2 s) : ℚ) := by
      have hv' : 0 < validCount t1.mask (rolledMask t2 s) := by omega
      exact_mod_cast hv'
    have hq : q = (disagreeCount t1.code (rolledCode t2 s)
        (maskInter t1.mask (rolledMask t2 s)) : ℚ)
        / (validCount t1.mask (rolledMask t2 s) : ℚ) := by
      exact ((Option.some.injEq _ _).mp h).symm
    constructor
    · rw [hq]; positivity
    · rw [hq, div_le_one hvpos]
      exact_mod_cast hle

lemma compareStep_fst_le (t1 t2 : IrisTemplate) (b : ℚ × Int) (s : Int) :
    (compareStep t1 t2 b s).1 ≤ b.1 := by
  unfold compareStep
  cases h : hdAt t1 t2 s with
  | none => exact le_refl _
  | some hd =>
    by_cases hlt : hd < b.1
    · simp [hlt]; exact le_of_lt hlt
    · simp [hlt]

lemma foldl_compareStep_fst_le (t1 t2 : IrisTemplate) (l : List Int) (b : ℚ × Int) :
    (l.foldl (compareStep t1 t2) b).1 ≤ b.1 := by
  induction l generalizing b with
  | nil => exact le_refl _
  | cons s rest ih =>
    exact le_trans (ih (compareStep t1 t2 b s)) (compareStep_fst_le t1 t2 b s)

lemma compareStep_fst_le_of_some {t1 t2 : IrisTemplate} {s : Int} {h : ℚ}
    (hhd : hdAt t1 t2 s = some h) (b : ℚ × Int) :
    (compareStep t1 t2 b s).1 ≤ h := by
  unfold compareStep
  rw [hhd]
  by_cases hlt : h < b.1
  · simp [hlt]
  · simp [hlt]; exact le_of_not_lt hlt

lemma foldl_compareStep_le_of_mem {t1 t2 : IrisTemplate} {l : List Int} {s : Int} {h : ℚ}
    (hmem : s ∈ l) (hhd : hdAt t1 t2 s = some h) (b : ℚ × Int) :
    (l.foldl (compareStep t1 t2) b).1 ≤ h := by
  obtain ⟨l1, l2, rfl⟩ := List.append_of_mem hmem
  rw [List.foldl_append, List.foldl_cons]
  exact le_trans (foldl_compareStep_fst_le t1 t2 l2 _)
    (compareStep_fst_le_of_some hhd _)

/-- The best pair either is still the initial `(1.0, 0)` or records a distance
actually achieved (and not skipped) at the recorded shift. -/
def achieves (t1 t2 : IrisTemplate) (b : ℚ × Int) : Prop :=
  b = (1, 0) ∨ hdAt t1 t2 b.2 = some b.1

lemma compareStep_achieves {t1 t2 : IrisTemplate} {b : ℚ × Int} (s : Int)
    (hb : achieves t1 t2 b) : achieves t1 t2 (compareStep t1 t2 b s) := by
  unfold compareStep
  cases h : hdAt t1 t2 s with
  | none => exact hb
  | some hd =>
    by_cases hlt : hd < b.1
    · simp only [hlt, if_true]
      exact Or.inr h
    · simp only [hlt, if_false]
      exact hb

lemma foldl_compareStep_achieves {t1 t2 : IrisTemplate} (l : List Int) (b : ℚ × Int)
    (hb : achieves t1 t2 b) : achieves t1 t2 (l.foldl (compareStep t1 t2) b) := by
  induction l generalizing b with
  | nil => exact hb
  | cons s rest ih => exact ih _ (compareStep_achieves s hb)

lemma mem_shiftRange {r : Nat} {s : Int} (h : s ∈ shiftRange r) :
    -(r : Int) ≤ s ∧ s ≤ (r : Int) := by
  unfold shiftRange at h
  rw [List.mem_map] at h
  obtain ⟨j, hj, rfl⟩ := h
  rw [List.mem_range] at hj
  omega

lemma shiftRange_mem {r : Nat} {s : Int} (hlo : -(r : Int) ≤ s) (hhi : s ≤ (r : Int)) :
    s ∈ shiftRange r := by
  unfold shiftRange
  rw [List.mem_map]
  refine ⟨(s + r).toNat, ?_, ?_⟩
  · rw [List.mem_range]; omega
  · show ((s + (r : Int)).toNat : Int) - (r : Int) = s
    omega

lemma compareStep_shift_bounds {t1 t2 : IrisTemplate} {r : Nat} {b : ℚ × Int} {s : Int}
    (hs : s ∈ shiftRange r) (hb : -(r : Int) ≤ b.2 ∧ b.2 ≤ (r : Int)) :
    -(r : Int) ≤ (compareStep t1 t2 b s).2 ∧ (compareStep t1 t2 b s).2 ≤ (r : Int) := by
  unfold compareStep
  cases h : hdAt t1 t2 s with
  | none => exact hb
  | some hd =>
    by_cases hlt : hd < b.1
    · simp only [hlt, if_true]
      exact mem_shiftRange hs
    · simp only [hlt, if_false]
      exact hb

lemma foldl_compareStep_shift_bounds {t1 t2 : IrisTemplate} {r : Nat} (l : List Int)
    (hl : ∀ s ∈ l, s ∈ shiftRange r) (b : ℚ × Int)
    (hb : -(r : Int) ≤ b.2 ∧ b.2 ≤ (r : Int)) :
    -(r : Int) ≤ (l.foldl (compareStep t1 t2) b).2 ∧
      (l.foldl (compareStep t1 t2) b).2 ≤ (r : Int) := by
  induction l generalizing b with
  | nil => exact hb
  | cons s rest ih =>
    exact ih (fun x hx => hl x (List.mem_cons_of_mem s hx)) _
      (compareStep_shift_bounds (hl s (List.mem_cons_self s rest)) hb)

lemma foldl_compareStep_fst_nonneg {t1 t2 : IrisTemplate} (l : List Int) (b : ℚ × Int)
    (hb : 0 ≤ b.1) : 0 ≤ (l.foldl (compareStep t1 t2) b).1 := by
  induction l generalizing b with
  | nil => exact hb
  | cons s rest ih =>
    refine ih _ ?_
    unfold compareStep
    cases h : hdAt t1 t2 s with
    | none => exact hb
    | some hd =>
      by_cases hlt : hd < b.1
      · simp only [hlt, if_true]
        exact (hdAt_bounds h).1
      · simp only [hlt, if_false]
        exact hb

lemma foldl_compareStep_skip {t1 t2 : IrisTemplate} (l : List Int) (b : ℚ × Int)
    (h : ∀ s ∈ l, hdAt t1 t2 s = none) : l.foldl (compareStep t1 t2) b = b := by
  induction l generalizing b with
  | nil => rfl
  | cons s rest ih =>
    have hs : hdAt t1 t2 s = none := h s (List.mem_cons_self s rest)
    rw [List.foldl_cons]
    have hstep : compareStep t1 t2 b s = b := by
      unfold compareStep
      rw [hs]
    rw [hstep]
    exact ih _ (fun x hx => h x (List.mem_cons_of_mem s hx))

lemma validCount_self (m : List Bool) : validCount m m = countTrue m := by
  unfold validCount
  rw [maskInter_self]

/-- If some in-range shift is evaluated with masked distance `0` and the
unshifted mask intersection is nonempty, then the search returns distance `0`,
an in-range shift, and that returned shift itself achieves masked distance
`0`. -/
lemma compare_perfect_shift {t1 t2 : IrisTemplate} {s0 : Int}
    (hmem : s0 ∈ shiftRange 8) (hzero : hdAt t1 t2 s0 = some 0)
    (hstart : validCount t1.mask t2.mask ≠ 0) :
    (compare_iris_codes t1 t2 8).1 = 0 ∧
      -8 ≤ (compare_iris_codes t1 t2 8).2 ∧ (compare_iris_codes t1 t2 8).2 ≤ 8 ∧
      hdAt t1 t2 (compare_iris_codes t1 t2 8).2 = some 0 := by
  have hcomp : compare_iris_codes t1 t2 8 =
      (shiftRange 8).foldl (compareStep t1 t2) (1, 0) := by
    unfold compare_iris_codes
    simp [hstart]
  have hle : ((shiftRange 8).foldl (compareStep t1 t2) (1, 0)).1 ≤ 0 :=
    foldl_compareStep_le_of_mem hmem hzero (1, 0)
  have hge : 0 ≤ ((shiftRange 8).foldl (compareStep t1 t2) (1, 0)).1 :=
    foldl_compareStep_fst_nonneg _ _ (by norm_num)
  have hfst : ((shiftRange 8).foldl (compareStep t1 t2) (1, 0)).1 = 0 :=
    le_antisymm hle hge
  have hach : achieves t1 t2 ((shiftRange 8).foldl (compareStep t1 t2) (1, 0)) :=
    foldl_compareStep_achieves _ _ (Or.inl rfl)
  have hb := @foldl_compareStep_shift_bounds t1 t2 8
    (shiftRange 8) (fun _ hs => hs) (1, 0) (by norm_num)
  rcases hach with h10 | hachv
  · rw [h10] at hfst
    norm_num at hfst
  · rw [hcomp]
    refine ⟨hfst, ?_, ?_, ?_⟩
    · have := hb.1
      push_cast at this
      exact this
    · have := hb.2
      push_cast at this
      exact this
    · rw [hachv, hfst]

/-- Claim C1: if the unconditional intersection of the two masks is empty, or
every circular shift in -8..+8 yields fewer than 50 valid bits in the
intersection of `mask1` with the shifted `mask2`, then `compare_iris_codes`
returns distance exactly `1.0` and shift `0`; the condition is absorbed into
the return value (the embedded function is total), never raised. -/
theorem compare_mask_starvation (t1 t2 : IrisTemplate)
    (hlen : t1.code.length = t2.code.length ∧ t1.mask.length = t2.mask.length)
    (h : validCount t1.mask t2.mask = 0 ∨
      ∀ s ∈ shiftRange 8, validCount t1.mask (rolledMask t2 s) < 50) :
    compare_iris_codes t1 t2 8 = (1, 0) := by
  unfold compare_iris_codes
  rcases h with h0 | hall
  · simp [h0]
  · by_cases h0 : validCount t1.mask t2.mask = 0
    · simp [h0]
    · simp only [h0, if_false]
      exact foldl_compareStep_skip _ _ (fun s hs => hdAt_of_lt_50 (hall s hs))

/-- Template whose mask is valid only on the first position. -/
def leftT : IrisTemplate := ⟨[true, true], [true, false]⟩

/-- Template whose mask is valid only on the second position. -/
def rightT : IrisTemplate := ⟨[true, true], [false, true]⟩

/-- Witness for C1: two equal-length templates with disjoint masks map to
`(1.0, 0)`. -/
theorem compare_mask_starvation_witness :
    validCount leftT.mask rightT.mask = 0 ∧
      compare_iris_codes leftT rightT 8 = (1, 0) :=
  ⟨by decide, compare_mask_starvation leftT rightT ⟨rfl, rfl⟩ (Or.inl (by decide))⟩

/-- Template of 50 bits, all set, with an all-valid mask. -/
def allOnesT : IrisTemplate := ⟨List.replicate 50 true, List.replicate 50 true⟩

set_option maxRecDepth 8000

/-- Claim C2 counterexample: for the all-ones 50-bit template (whose mask has
50 ≥ 50 valid bits), self-comparison returns `(0.0, -8)`: every shift ties at
distance `0`, the strict-improvement update keeps the first one tried (`-8`),
so the returned shift is not `0` as the claim states. -/
theorem self_match_shift_counterexample :
    50 ≤ countTrue allOnesT.mask ∧
      compare_iris_codes allOnesT allOnesT 8 = (0, -8) ∧
      (compare_iris_codes allOnesT allOnesT 8).2 ≠ 0 := by
  refine ⟨by decide, by decide, by decide⟩

/-- Claim C2 (amended): self-comparison of a template whose mask has at least
50 valid bits returns Hamming distance exactly `0.0`, and the returned shift
lies in `-8..8` and itself achieves masked distance `0.0` (it is `0` unless an
earlier shift already ties at distance `0`). -/
theorem self_match_distance_zero (t : IrisTemplate) (h50 : 50 ≤ countTrue t.mask) :
    (compare_iris_codes t t 8).1 = 0 ∧
      -8 ≤ (compare_iris_codes t t 8).2 ∧ (compare_iris_codes t t 8).2 ≤ 8 ∧
      hdAt t t (compare_iris_codes t t 8).2 = some 0 := by
  have hm : rolledMask t 0 = t.mask := if_pos rfl
  have hc : rolledCode t 0 = t.code := if_pos rfl
  have hnot : ¬ validCount t.mask (rolledMask t 0) < 50 := by
    rw [hm, validCount_self]
    omega
  have hzero : hdAt t t 0 = some 0 := by
    rw [hdAt_eq_mean hnot, hm, hc]
    rw [show disagreeCount t.code t.code (maskInter t.mask t.mask) = 0 from
      countTrue_and_xor_self _ _]
    norm_num
  have hstart : validCount t.mask t.mask ≠ 0 := by
    rw [validCount_self]
    omega
  exact compare_perfect_shift (by decide) hzero hstart

/-- Template with a single set bit among 50, with an all-valid mask. -/
def spikeT : IrisTemplate := ⟨true :: List.replicate 49 false, List.replicate 50 true⟩

/-- Witness for the amended C2: a 50-bit template with a unique spike;
self-comparison gives distance `0`, and the returned shift achieves it. -/
theorem self_match_distance_zero_witness :
    50 ≤ countTrue spikeT.mask ∧
      ((compare_iris_codes spikeT spikeT 8).1 = 0 ∧
        -8 ≤ (compare_iris_codes spikeT spikeT 8).2 ∧
        (compare_iris_codes spikeT spikeT 8).2 ≤ 8 ∧
        hdAt spikeT spikeT (compare_iris_codes spikeT spikeT 8).2 = some 0) :=
  ⟨by decide, self_match_distance_zero spikeT (by decide)⟩

/-- 100 bits alternating true/false (valid exactly on even positions). -/
def altBits : List Bool := (List.range 100).map fun i => decide (i % 2 = 0)

/-- Template with alternating code and alternating mask. -/
def altT : IrisTemplate := ⟨altBits, altBits⟩

/-- Claim C3 counterexample: `altT` against its copy rolled by `k = 1`.  The
aligning shift `-1` has 50 ≥ 50 valid bits in the mask intersection, yet the
function returns `(1.0, 0)` — not distance `0.0` at the matching shift —
because the unshifted mask intersection is empty and triggers the early
return before any shift is tried. -/
theorem rotation_tolerance_counterexample :
    50 ≤ validCount altT.mask (rolledMask (rollTemplate altT 1) (-1)) ∧
      compare_iris_codes altT (rollTemplate altT 1) 8 = (1, 0) ∧
      (compare_iris_codes altT (rollTemplate altT 1) 8).1 ≠ 0 := by
  refine ⟨by decide, by decide, by decide⟩

/-- Claim C3 (amended): comparing `t` against its copy circularly shifted by
`k` (|k| ≤ 8) returns distance exactly `0.0` — at a shift in `-8..8` that
itself achieves masked distance `0.0` (the matching shift unless an earlier
shift ties) — provided the mask has at least 50 valid bits (so the aligning
shift is evaluated) and additionally the unshifted mask intersection is
nonempty (otherwise the early `(1.0, 0)` return fires). -/
theorem rotation_tolerance_distance_zero (t : IrisTemplate) (k : Int)
    (hk : -8 ≤ k ∧ k ≤ 8) (h50 : 50 ≤ countTrue t.mask)
    (hinter : validCount t.mask (rollTemplate t k).mask ≠ 0) :
    (compare_iris_codes t (rollTemplate t k) 8).1 = 0 ∧
      -8 ≤ (compare_iris_codes t (rollTemplate t k) 8).2 ∧
      (compare_iris_codes t (rollTemplate t k) 8).2 ≤ 8 ∧
      hdAt t (rollTemplate t k) (compare_iris_codes t (rollTemplate t k) 8).2 = some 0 := by
  have hm : rolledMask (rollTemplate t k) (-k) = t.mask := by
    by_cases hk0 : k = 0
    · subst hk0
      simp [rolledMask, rollTemplate, roll_zero]
    · rw [rolledMask, if_neg (neg_ne_zero.mpr hk0)]
      exact roll_roll_neg t.mask k
  have hc : rolledCode (rollTemplate t k) (-k) = t.code := by
    by_cases hk0 : k = 0
    · subst hk0
      simp [rolledCode, rollTemplate, roll_zero]
    · rw [rolledCode, if_neg (neg_ne_zero.mpr hk0)]
      exact roll_roll_neg t.code k
  have hnot : ¬ validCount t.mask (rolledMask (rollTemplate t k) (-k)) < 50 := by
    rw [hm, validCount_self]
    omega
  have hzero : hdAt t (rollTemplate t k) (-k) = some 0 := by
    rw [hdAt_eq_mean hnot, hm, hc]
    rw [show disagreeCount t.code t.code (maskInter t.mask t.mask) = 0 from
      countTrue_and_xor_self _ _]
    norm_num
  have hmem : -k ∈ shiftRange 8 := by
    refine shiftRange_mem ?_ ?_ <;> push_cast <;> omega
  exact compare_perfect_shift hmem hzero hinter

/-- Witness for the amended C3: the spike template rolled by `k = 2`. -/
theorem rotation_tolerance_distance_zero_witness :
    (50 ≤ countTrue spikeT.mask ∧
      validCount spikeT.mask (rollTemplate spikeT 2).mask ≠ 0) ∧
      ((compare_iris_codes spikeT (rollTemplate spikeT 2) 8).1 = 0 ∧
        -8 ≤ (compare_iris_codes spikeT (rollTemplate spikeT 2) 8).2 ∧
        (compare_iris_codes spikeT (rollTemplate spikeT 2) 8).2 ≤ 8 ∧
        hdAt spikeT (rollTemplate spikeT 2)
          (compare_iris_codes spikeT (rollTemplate spikeT 2) 8).2 = some 0) :=
  ⟨⟨by decide, by decide⟩,
    rotation_tolerance_distance_zero spikeT 2 ⟨by decide, by decide⟩
      (by decide) (by decide)⟩

/-- Claim C10: for equal-shape templates the comparison is total (the
embedding returns a value, never raises: the shape assertion holds by
hypothesis and every arithmetic step is defined), the returned distance lies
in `[0.0, 1.0]`, the returned shift lies in `-8..8`, and the result is
`(1.0, 0)` — in particular shift `0` — whenever no shift was evaluated. -/
theorem compare_total_and_bounded (t1 t2 : IrisTemplate)
    (hlen : t1.code.length = t2.code.length ∧ t1.mask.length = t2.mask.length ∧
      t1.code.length = t1.mask.length) :
    0 ≤ (compare_iris_codes t1 t2 8).1 ∧ (compare_iris_codes t1 t2 8).1 ≤ 1 ∧
      -8 ≤ (compare_iris_codes t1 t2 8).2 ∧ (compare_iris_codes t1 t2 8).2 ≤ 8 ∧
      ((∀ s ∈ shiftRange 8, hdAt t1 t2 s = none) → compare_iris_codes t1 t2 8 = (1, 0)) := by
  unfold compare_iris_codes
  by_cases h0 : validCount t1.mask t2.mask = 0
  · simp only [h0, if_pos]
    norm_num
  · simp only [h0, if_false]
    have hb := @foldl_compareStep_shift_bounds t1 t2 8
      (shiftRange 8) (fun _ hs => hs) (1, 0) (by norm_num)
    refine ⟨foldl_compareStep_fst_nonneg _ _ (by norm_num), ?_, ?_, ?_, ?_⟩
    · simpa using foldl_compareStep_fst_le t1 t2 (shiftRange 8) (1, 0)
    · have h := hb.1
      push_cast at h
      exact h
    · have h := hb.2
      push_cast at h
      exact h
    · intro hall
      exact foldl_compareStep_skip _ _ hall

/-- Witness for C10: bounds at a concrete equal-shape pair. -/
theorem compare_total_and_bounded_witness :
    (leftT.code.length = rightT.code.length ∧
      leftT.mask.length = rightT.mask.length ∧
      leftT.code.length = leftT.mask.length) ∧
      (0 ≤ (compare_iris_codes leftT rightT 8).1 ∧
        (compare_iris_codes leftT rightT 8).1 ≤ 1 ∧
        -8 ≤ (compare_iris_codes leftT rightT 8).2 ∧
        (compare_iris_codes leftT rightT 8).2 ≤ 8 ∧
        ((∀ s ∈ shiftRange 8, hdAt leftT rightT s = none) →
          compare_iris_codes leftT rightT 8 = (1, 0))) :=
  ⟨⟨rfl, rfl, rfl⟩, compare_total_and_bounded leftT rightT ⟨rfl, rfl, rfl⟩⟩

/-! ## Template creation (`create_iris_code` in `iris_engine.py`)

The OpenCV stages (image load, grayscale conversion, resize, CLAHE, polar
unwrap into the fixed `64 × 256` strip, Laplacian, Gabor `filter2D`) are
external library calls; their outputs are fixed-shape arrays and appear here
as explicitly quantified functions on `Fin 64 × Fin 256` (the types carry the
shape that OpenCV guarantees).  Everything downstream — the validity mask
thresholds, the sign binarization, the `np.stack`/`np.repeat` plane layout
and the row-major `flatten` — is translated from the source. -/

/-- Rows of the normalized strip (`unwrap_size = (64, 256)`). -/
def STRIP_ROWS : Nat := 64

/-- Columns of the normalized strip. -/
def STRIP_COLS : Nat := 256

/-- Number of Gabor kernels in `_gabor_bank` (K = 4 orientations). -/
def GABOR_BANK_SIZE : Nat := 4

/-- Function `_make_mask` from `iris_engine.py`: a strip position is valid when its
intensity lies strictly between 25 and 230 and the magnitude of the Laplacian
response exceeds 1.0.  `norm` is the unwrapped strip (uint8 intensities as
integers), `lap` the externally computed `cv2.Laplacian` response. -/
def make_mask (norm : Fin STRIP_ROWS → Fin STRIP_COLS → Int)
    (lap : Fin STRIP_ROWS → Fin STRIP_COLS → ℚ) :
    Fin STRIP_ROWS → Fin STRIP_COLS → Bool :=
  fun i j => decide (25 < norm i j) && decide (norm i j < 230) && decide (1 < |lap i j|)

/-- Row-major flattening of an `H × W × K` boolean volume, exactly numpy's
C-order `flatten` after `np.stack(..., axis=-1)`. -/
def flattenPlanes (f : Fin STRIP_ROWS → Fin STRIP_COLS → Fin GABOR_BANK_SIZE → Bool) :
    List Bool :=
  (List.finRange STRIP_ROWS).flatMap fun i =>
    (List.finRange STRIP_COLS).flatMap fun j =>
      (List.finRange GABOR_BANK_SIZE).map fun k => f i j k

/-- Function `create_iris_code` from `iris_engine.py`, downstream of the external
image stages: binarize each Gabor response by sign (`resp >= 0`), stack the
`K` bit-planes, replicate the 2-D mask across the planes, and flatten both
into 1-D sequences. -/
def create_iris_code (norm : Fin STRIP_ROWS → Fin STRIP_COLS → Int)
    (lap : Fin STRIP_ROWS → Fin STRIP_COLS → ℚ)
    (resp : Fin GABOR_BANK_SIZE → Fin STRIP_ROWS → Fin STRIP_COLS → ℚ) :
    IrisTemplate :=
  { code := flattenPlanes fun i j k => decide (0 ≤ resp k i j)
    mask := flattenPlanes fun i j _ => make_mask norm lap i j }

lemma length_flatMap_const {α β : Type} (l : List α) (f : α → List β) (c : Nat)
    (h : ∀ a ∈ l, (f a).length = c) : (l.flatMap f).length = l.length * c := by
  induction l with
  | nil => simp
  | cons x xs ih =>
    rw [List.flatMap_cons, List.length_append, h x (List.mem_cons_self x xs),
      ih (fun a ha => h a (List.mem_cons_of_mem x ha))]
    simp [Nat.succ_mul]
    omega

lemma flattenPlanes_length
    (f : Fin STRIP_ROWS → Fin STRIP_COLS → Fin GABOR_BANK_SIZE → Bool) :
    (flattenPlanes f).length = STRIP_ROWS * STRIP_COLS * GABOR_BANK_SIZE := by
  unfold flattenPlanes
  rw [length_flatMap_const _ _ (STRIP_COLS * GABOR_BANK_SIZE)]
  · rw [List.length_finRange]
    ring
  · intro i _
    rw [length_flatMap_const _ _ GABOR_BANK_SIZE]
    · rw [List.length_finRange]
    · intro j _
      rw [List.length_map, List.length_finRange]

/-- Claim C8: for every successfully loaded image (i.e., for every value of
the externally produced strip, Laplacian and filter responses),
`create_iris_code` returns a template whose code and mask are 1-D sequences
of equal length, and that length is `64 × 256 × 4` bits, fixed across all
templates produced with these normalization parameters. -/
theorem create_iris_code_shape (norm : Fin STRIP_ROWS → Fin STRIP_COLS → Int)
    (lap : Fin STRIP_ROWS → Fin STRIP_COLS → ℚ)
    (resp : Fin GABOR_BANK_SIZE → Fin STRIP_ROWS → Fin STRIP_COLS → ℚ) :
    (create_iris_code norm lap resp).code.length
        = (create_iris_code norm lap resp).mask.length ∧
      (create_iris_code norm lap resp).code.length
        = STRIP_ROWS * STRIP_COLS * GABOR_BANK_SIZE := by
  unfold create_iris_code
  constructor
  · rw [flattenPlanes_length, flattenPlanes_length]
  · rw [flattenPlanes_length]

/-! ## Liveness engines (`backend.py` and `vision_utils.py`)

The EAR value is a real-valued function of the landmark geometry computed by
an external landmark provider; the engines only compare it with a constant
threshold, so each per-frame call is embedded as a function of the averaged
EAR (`some ear` when landmarks with both eyes are present, `none` when the
landmark list is empty or an eye key is missing) and of the carried blink
counter.  Threshold comparisons are exact rational comparisons. -/

/-- Constant `EAR_THRESHOLD` of `backend.py` (0.21, as the exact rational 21/100). -/
def EAR_THRESHOLD : ℚ := mkRat 21 100

/-- Constant `BLINK_FRAMES_MIN` of `backend.py`. -/
def BLINK_FRAMES_MIN : Nat := 2

/-- Constant `BLINK_FRAMES_MAX` of `backend.py`. -/
def BLINK_FRAMES_MAX : Nat := 6

/-- Function `_check_liveness_internal` from `backend.py`, with the mutable
`self.blink_counter` made an explicit argument/result.  An absent face or
missing eye landmarks (`none`) returns `False` and leaves the counter
unchanged.  A closed-eye frame (EAR below threshold) increments the counter.
An open-eye frame signals a blink exactly when the accumulated run lies in
`BLINK_FRAMES_MIN..BLINK_FRAMES_MAX` and resets the counter either way. -/
def check_liveness_internal (earInput : Option ℚ) (blink_counter : Nat) : Bool × Nat :=
  match earInput with
  | none => (false, blink_counter)
  | some ear =>
    if ear < EAR_THRESHOLD then (false, blink_counter + 1)
    else if BLINK_FRAMES_MIN ≤ blink_counter ∧ blink_counter ≤ BLINK_FRAMES_MAX then (true, 0)
    else (false, 0)

/-- Constant `EAR_THRESHOLD` of `vision_utils.py` (0.25, as the exact rational 25/100). -/
def VU_EAR_THRESHOLD : ℚ := mkRat 25 100

/-- Constant `BLINK_FRAMES_MIN` of `vision_utils.py`. -/
def VU_BLINK_FRAMES_MIN : Nat := 2

/-- Constant `BLINK_FRAMES_MAX` of `vision_utils.py`. -/
def VU_BLINK_FRAMES_MAX : Nat := 5

/-- Function `check_blink` from `vision_utils.py` (`is_live`, updated counter).  Unlike
the backend engine it resets the counter to `0` when no face is detected. -/
def check_blink (earInput : Option ℚ) (blink_counter : Nat) : Bool × Nat :=
  match earInput with
  | none => (false, 0)
  | some ear =>
    if ear < VU_EAR_THRESHOLD then (false, blink_counter + 1)
    else if VU_BLINK_FRAMES_MIN ≤ blink_counter ∧ blink_counter ≤ VU_BLINK_FRAMES_MAX then
      (true, 0)
    else (false, 0)

/-- Claim C4: with valid landmarks, a closed-eye frame (EAR below threshold)
increments the counter and never signals; a run of `k` closed-eye frames from
a fresh counter accumulates the counter to `k`; the following open-eye frame
signals exactly when `k` lies in the inclusive band `2..6` and resets the
counter to `0` regardless (so a 1-frame run never signals, and a 7-plus-frame
run never signals but still resets on eye opening). -/
theorem blink_band_enforcement (e eOpen : ℚ) (k c : Nat)
    (hclosed : e < EAR_THRESHOLD) (hopen : EAR_THRESHOLD ≤ eOpen) :
    check_liveness_internal (some e) c = (false, c + 1) ∧
      (fun n => (check_liveness_internal (some e) n).2)^[k] 0 = k ∧
      check_liveness_internal (some eOpen) k = (decide (2 ≤ k ∧ k ≤ 6), 0) := by
  have hstep : ∀ n, check_liveness_internal (some e) n = (false, n + 1) := by
    intro n
    simp only [check_liveness_internal]
    rw [if_pos hclosed]
  refine ⟨hstep c, ?_, ?_⟩
  · induction k with
    | zero => rfl
    | succ m ih =>
      rw [Function.iterate_succ_apply', ih, hstep]
  · simp only [check_liveness_internal]
    rw [if_neg (not_lt.mpr hopen)]
    by_cases hband : BLINK_FRAMES_MIN ≤ k ∧ k ≤ BLINK_FRAMES_MAX
    · rw [if_pos hband]
      have : decide (2 ≤ k ∧ k ≤ 6) = true := by
        apply decide_eq_true
        exact hband
      rw [this]
    · rw [if_neg hband]
      have : decide (2 ≤ k ∧ k ≤ 6) = false := by
        apply decide_eq_false
        exact hband
      rw [this]

/-- Witness for C4 at EAR 0.1 (closed) / 0.5 (open) and a 3-frame run. -/
theorem blink_band_enforcement_witness :
    ((1 : ℚ)/10 < EAR_THRESHOLD ∧ EAR_THRESHOLD ≤ (1 : ℚ)/2) ∧
      (check_liveness_internal (some ((1 : ℚ)/10)) 0 = (false, 0 + 1) ∧
        (fun n => (check_liveness_internal (some ((1 : ℚ)/10)) n).2)^[3] 0 = 3 ∧
        check_liveness_internal (some ((1 : ℚ)/2)) 3 = (decide (2 ≤ 3 ∧ 3 ≤ 6), 0)) :=
  ⟨⟨by norm_num [EAR_THRESHOLD, mkRat_natCast_div], by norm_num [EAR_THRESHOLD, mkRat_natCast_div]⟩,
    blink_band_enforcement ((1 : ℚ)/10) ((1 : ℚ)/2) 3 0
      (by norm_num [EAR_THRESHOLD, mkRat_natCast_div]) (by norm_num [EAR_THRESHOLD, mkRat_natCast_div])⟩

/-- Claim C5 counterexample: the backend liveness engine called with no
face/landmarks and counter `3` leaves the counter at `3`, not `0`. -/
theorem no_face_reset_counterexample :
    check_liveness_internal none 3 = (false, 3) ∧ (3 : Nat) ≠ 0 :=
  ⟨rfl, by decide⟩

/-- Claim C5 (amended): on a call with no face/landmarks, no liveness event is
signaled by either engine; `check_blink` (`vision_utils.py`) resets the blink
counter to `0`, while `_check_liveness_internal` (`backend.py`) leaves the
counter unchanged. -/
theorem no_face_liveness_behaviour (c : Nat) :
    check_blink none c = (false, 0) ∧ check_liveness_internal none c = (false, c) :=
  ⟨rfl, rfl⟩

/-! ## Verification state machine (`run_attendance_check` in `backend.py`)

Wall-clock time (`time.time()`) is supplied by the driver as the rational
`now` of each tick.  The external `face_recognition` results in the
`WAITING_FOR_FACE` branch are supplied as tick inputs: whether the landmark
list is nonempty, whether `face_locations` found a face, and the best
enrolled match under the 0.6 tolerance, if any (`face_distances` is nonempty
whenever users are enrolled, so that dead branch is not modelled).  Users are
identified by their numeric row id.  The two spots where the Python code
would dereference `self.pending_verification_user['name']` while it is `None`
(a `TypeError`) are embedded as `none` results of the tick. -/

/-- The four workflow states of `backend.py`. -/
inductive WorkflowState
  | WAITING_FOR_FACE
  | CHECKING_LIVENESS
  | VERIFYING
  | FINAL_SUCCESS
deriving DecidableEq

/-- The mutable session fields of `AttendanceSystem`. -/
structure SysState where
  workflow_state : WorkflowState
  blink_counter : Nat
  last_state_change_time : ℚ
  pending_verification_user : Option Nat
  scan_progress : ℚ
deriving DecidableEq

/-- Function `reset_workflow` from `backend.py`. -/
def reset_workflow (now : ℚ) (s : SysState) : SysState :=
  { s with
    workflow_state := .WAITING_FOR_FACE
    blink_counter := 0
    last_state_change_time := now
    pending_verification_user := none
    scan_progress := 0 }

/-- The state right after `__init__` (which calls `reset_workflow`). -/
def initialState (t0 : ℚ) : SysState :=
  ⟨.WAITING_FOR_FACE, 0, t0, none, 0⟩

/-- The status messages emitted by `run_attendance_check` (the initial
`"Initializing..."` is overwritten in every reachable branch). -/
inductive StatusMsg
  | noUsersEnrolled
  | pleaseLook
  | userNotRecognized
  | welcomeBlink (uid : Nat)
  | verifying
  | attendanceMarked (uid : Nat)
deriving DecidableEq

/-- The per-tick return of `run_attendance_check` plus the reified
`log_attendance` side effect (`some uid` exactly when the CSV row is
written). -/
structure Output where
  message : StatusMsg
  color : Nat × Nat × Nat
  progress : ℚ
  logged : Option Nat
deriving DecidableEq

/-- Per-tick external inputs. -/
structure TickInput where
  now : ℚ
  landmarksPresent : Bool
  eyesPresent : Bool
  ear : ℚ
  faceLocated : Bool
  matchedUser : Option Nat
deriving DecidableEq

/-- The EAR input that `_check_liveness_internal` effectively receives:
`none` when the landmark list is empty or an eye key is missing. -/
def earOpt (inp : TickInput) : Option ℚ :=
  if inp.landmarksPresent && inp.eyesPresent then some inp.ear else none

/-- Constant `VERIFICATION_DURATION` of `backend.py` (5 s). -/
def VERIFICATION_DURATION : ℚ := 5

/-- Function `run_attendance_check` from `backend.py`, one tick of the state machine:
given whether any users are enrolled, the current session state and the tick
inputs, produce the successor state and the status tuple, or `none` where
the Python code would dereference an absent pending profile. -/
def run_attendance_check (hasUsers : Bool) (s : SysState) (inp : TickInput) :
    Option (SysState × Output) :=
  let s0 := { s with scan_progress := (0 : ℚ) }
  if hasUsers = false then
    some (s0, ⟨.noUsersEnrolled, (0, 0, 255), s0.scan_progress, none⟩)
  else
    match s0.workflow_state with
    | .WAITING_FOR_FACE =>
      if inp.landmarksPresent then
        if inp.faceLocated = false then
          some (s0, ⟨.pleaseLook, (200, 200, 0), s0.scan_progress, none⟩)
        else
          match inp.matchedUser with
          | some u =>
            some ({ s0 with
                      pending_verification_user := some u
                      workflow_state := .CHECKING_LIVENESS
                      blink_counter := 0
                      last_state_change_time := inp.now },
                  ⟨.pleaseLook, (200, 200, 0), s0.scan_progress, none⟩)
          | none =>
            some (s0, ⟨.userNotRecognized, (0, 0, 255), s0.scan_progress, none⟩)
      else
        some (s0, ⟨.pleaseLook, (200, 200, 0), s0.scan_progress, none⟩)
    | .CHECKING_LIVENESS =>
      match s0.pending_verification_user with
      | none => none
      | some u =>
        let res := check_liveness_internal (earOpt inp) s0.blink_counter
        let s1 := { s0 with blink_counter := res.2 }
        if res.1 then
          some ({ s1 with
                    workflow_state := .VERIFYING
                    last_state_change_time := inp.now },
                ⟨.welcomeBlink u, (0, 165, 255), s1.scan_progress, some u⟩)
        else if inp.now - s1.last_state_change_time > 10 then
          let s2 := reset_workflow inp.now s1
          some (s2, ⟨.welcomeBlink u, (0, 165, 255), s2.scan_progress, none⟩)
        else
          some (s1, ⟨.welcomeBlink u, (0, 165, 255), s1.scan_progress, none⟩)
    | .VERIFYING =>
      let elapsed := inp.now - s0.last_state_change_time
      let prog := min (elapsed / VERIFICATION_DURATION * 100) 100
      let s1 := { s0 with scan_progress := prog }
      if elapsed > VERIFICATION_DURATION then
        some ({ s1 with workflow_state := .FINAL_SUCCESS },
              ⟨.verifying, (0, 255, 0), s1.scan_progress, none⟩)
      else
        some (s1, ⟨.verifying, (0, 255, 0), s1.scan_progress, none⟩)
    | .FINAL_SUCCESS =>
      match s0.pending_verification_user with
      | none => none
      | some u =>
        some ({ s0 with scan_progress := (100 : ℚ) },
              ⟨.attendanceMarked u, (0, 255, 0), (100 : ℚ), none⟩)

/-- The session states that can arise in a run: the freshly initialized
state, any state produced by a successful tick, and any state produced by an
external `reset_workflow` call (as the GUI drivers do). -/
inductive Reachable : SysState → Prop
  | init (t0 : ℚ) : Reachable (initialState t0)
  | tick {s s' : SysState} {out : Output} (hasUsers : Bool) (inp : TickInput) :
      Reachable s → run_attendance_check hasUsers s inp = some (s', out) → Reachable s'
  | reset {s : SysState} (now : ℚ) : Reachable s → Reachable (reset_workflow now s)

/-- Claim C6: a tick taken in `CHECKING_LIVENESS` in which no qualifying
blink is confirmed and more than 10 seconds have elapsed since entering the
state goes back to `WAITING_FOR_FACE` with the pending profile cleared and
the blink counter reset to 0. -/
theorem liveness_timeout_reset (s : SysState) (inp : TickInput) (u : Nat)
    (hws : s.workflow_state = .CHECKING_LIVENESS)
    (hpend : s.pending_verification_user = some u)
    (hnoblink : (check_liveness_internal (earOpt inp) s.blink_counter).1 = false)
    (htime : inp.now - s.last_state_change_time > 10) :
    (run_attendance_check true s inp).map
        (fun r => (r.1.workflow_state, r.1.pending_verification_user, r.1.blink_counter))
      = some (.WAITING_FOR_FACE, none, 0) := by
  obtain ⟨ws, bc, ts, pu, sp⟩ := s
  simp only at hws hpend hnoblink htime
  subst hws
  subst hpend
  simp only [run_attendance_check, reset_workflow]
  simp [hnoblink, htime]

/-- Concrete session state sitting in `CHECKING_LIVENESS` for user 7. -/
def timeoutS : SysState := ⟨.CHECKING_LIVENESS, 0, 0, some 7, 5⟩

/-- Tick input with no face present, 11 seconds after state entry. -/
def timeoutI : TickInput := ⟨11, false, false, 0, false, none⟩

/-- Witness for C6: the timeout tick at a concrete state and input. -/
theorem liveness_timeout_reset_witness :
    ((check_liveness_internal (earOpt timeoutI) timeoutS.blink_counter).1 = false ∧
      timeoutI.now - timeoutS.last_state_change_time > 10) ∧
      (run_attendance_check true timeoutS timeoutI).map
          (fun r => (r.1.workflow_state, r.1.pending_verification_user, r.1.blink_counter))
        = some (.WAITING_FOR_FACE, none, 0) :=
  ⟨⟨by decide, by norm_num [timeoutI, timeoutS]⟩,
    liveness_timeout_reset timeoutS timeoutI 7 rfl rfl (by decide)
      (by norm_num [timeoutI, timeoutS])⟩

/-- Claim C7: a tick writes the attendance event (reified as `out.logged`)
precisely when that tick performs the `CHECKING_LIVENESS → VERIFYING`
transition, and a tick carries at most one event, so the event is recorded
exactly once per such transition and never on any other tick. -/
theorem attendance_logged_iff (hasUsers : Bool) (s : SysState) (inp : TickInput)
    (s' : SysState) (out : Output)
    (h : run_attendance_check hasUsers s inp = some (s', out)) :
    out.logged.isSome ↔
      (s.workflow_state = .CHECKING_LIVENESS ∧ s'.workflow_state = .VERIFYING) := by
  obtain ⟨ws, bc, ts, pu, sp⟩ := s
  cases hasUsers with
  | false =>
    simp only [run_attendance_check, reduceIte, Option.some.injEq, Prod.mk.injEq] at h
    obtain ⟨rfl, rfl⟩ := h
    cases ws <;> simp
  | true =>
    cases ws with
    | WAITING_FOR_FACE =>
      simp only [run_attendance_check] at h
      rw [if_neg (by simp)] at h
      by_cases hL : inp.landmarksPresent = true
      · simp only [hL, if_true] at h
        by_cases hF : inp.faceLocated = false
        · rw [if_pos hF] at h
          simp only [Option.some.injEq, Prod.mk.injEq] at h
          obtain ⟨rfl, rfl⟩ := h
          simp
        · rw [if_neg hF] at h
          cases hM : inp.matchedUser with
          | some u =>
            simp only [hM, Option.some.injEq, Prod.mk.injEq] at h
            obtain ⟨rfl, rfl⟩ := h
            simp
          | none =>
            simp only [hM, Option.some.injEq, Prod.mk.injEq] at h
            obtain ⟨rfl, rfl⟩ := h
            simp
      · simp only [Bool.not_eq_true] at hL
        simp only [hL, Bool.false_eq_true, if_false, Option.some.injEq,
          Prod.mk.injEq] at h
        obtain ⟨rfl, rfl⟩ := h
        simp
    | CHECKING_LIVENESS =>
      simp only [run_attendance_check] at h
      rw [if_neg (by simp)] at h
      cases hP : pu with
      | none =>
        simp only [hP] at h
        exact absurd h (by simp)
      | some u =>
        simp only [hP] at h
        by_cases hB : (check_liveness_internal (earOpt inp) bc).1 = true
        · simp only [hB, if_true, Option.some.injEq, Prod.mk.injEq] at h
          obtain ⟨rfl, rfl⟩ := h
          simp
        · simp only [Bool.not_eq_true] at hB
          simp only [hB, Bool.false_eq_true, if_false] at h
          by_cases hT : inp.now - ts > 10
          · rw [if_pos hT] at h
            simp only [reset_workflow, Option.some.injEq, Prod.mk.injEq] at h
            obtain ⟨rfl, rfl⟩ := h
            simp
          · rw [if_neg hT] at h
            simp only [Option.some.injEq, Prod.mk.injEq] at h
            obtain ⟨rfl, rfl⟩ := h
            simp
    | VERIFYING =>
      simp only [run_attendance_check] at h
      rw [if_neg (by simp)] at h
      by_cases hT : inp.now - ts > VERIFICATION_DURATION
      · rw [if_pos hT] at h
        simp only [Option.some.injEq, Prod.mk.injEq] at h
        obtain ⟨rfl, rfl⟩ := h
        simp
      · rw [if_neg hT] at h
        simp only [Option.some.injEq, Prod.mk.injEq] at h
        obtain ⟨rfl, rfl⟩ := h
        simp
    | FINAL_SUCCESS =>
      simp only [run_attendance_check] at h
      rw [if_neg (by simp)] at h
      cases hP : pu with
      | none =>
        simp only [hP] at h
        exact absurd h (by simp)
      | some u =>
        simp only [hP, Option.some.injEq, Prod.mk.injEq] at h
        obtain ⟨rfl, rfl⟩ := h
        simp

/-- Session state in `CHECKING_LIVENESS` for user 5 with a 2-frame blink run. -/
def blinkS : SysState := ⟨.CHECKING_LIVENESS, 2, 0, some 5, 0⟩

/-- Tick input with open eyes (EAR 1) three seconds in. -/
def blinkI : TickInput := ⟨3, true, true, 1, false, none⟩

/-- Successor state of the blink-confirming tick. -/
def blinkS' : SysState := ⟨.VERIFYING, 0, 3, some 5, 0⟩

/-- Output of the blink-confirming tick: attendance logged for user 5. -/
def blinkO : Output := ⟨.welcomeBlink 5, (0, 165, 255), 0, some 5⟩

/-- Witness for C7: the concrete blink-confirming tick, on which the logged
event and the `CHECKING_LIVENESS → VERIFYING` transition coincide. -/
theorem attendance_logged_iff_witness :
    run_attendance_check true blinkS blinkI = some (blinkS', blinkO) ∧
      (blinkO.logged.isSome ↔
        (blinkS.workflow_state = .CHECKING_LIVENESS ∧
          blinkS'.workflow_state = .VERIFYING)) :=
  ⟨by decide, attendance_logged_iff true blinkS blinkI blinkS' blinkO (by decide)⟩

/-- The C9 induction step: one successful tick preserves "pending profile is
set in the three post-identification states". -/
lemma tick_preserves_pending {hasUsers : Bool} {s s' : SysState} {inp : TickInput}
    {out : Output}
    (hs : (s.workflow_state = .CHECKING_LIVENESS ∨ s.workflow_state = .VERIFYING ∨
      s.workflow_state = .FINAL_SUCCESS) → s.pending_verification_user.isSome)
    (h : run_attendance_check hasUsers s inp = some (s', out)) :
    (s'.workflow_state = .CHECKING_LIVENESS ∨ s'.workflow_state = .VERIFYING ∨
      s'.workflow_state = .FINAL_SUCCESS) → s'.pending_verification_user.isSome := by
  obtain ⟨ws, bc, ts, pu, sp⟩ := s
  cases hasUsers with
  | false =>
    simp only [run_attendance_check, reduceIte, Option.some.injEq, Prod.mk.injEq] at h
    obtain ⟨rfl, rfl⟩ := h
    simpa using hs
  | true =>
    cases ws with
    | WAITING_FOR_FACE =>
      simp only [run_attendance_check] at h
      rw [if_neg (by simp)] at h
      by_cases hL : inp.landmarksPresent = true
      · simp only [hL, if_true] at h
        by_cases hF : inp.faceLocated = false
        · rw [if_pos hF] at h
          simp only [Option.some.injEq, Prod.mk.injEq] at h
          obtain ⟨rfl, rfl⟩ := h
          simp
        · rw [if_neg hF] at h
          cases hM : inp.matchedUser with
          | some u =>
            simp only [hM, Option.some.injEq, Prod.mk.injEq] at h
            obtain ⟨rfl, rfl⟩ := h
            simp
          | none =>
            simp only [hM, Option.some.injEq, Prod.mk.injEq] at h
            obtain ⟨rfl, rfl⟩ := h
            simp
      · simp only [Bool.not_eq_true] at hL
        simp only [hL, Bool.false_eq_true, if_false, Option.some.injEq,
          Prod.mk.injEq] at h
        obtain ⟨rfl, rfl⟩ := h
        simp
    | CHECKING_LIVENESS =>
      simp only [run_attendance_check] at h
      rw [if_neg (by simp)] at h
      cases hP : pu with
      | none =>
        simp only [hP] at h
        exact absurd h (by simp)
      | some u =>
        simp only [hP] at h
        by_cases hB : (check_liveness_internal (earOpt inp) bc).1 = true
        · simp only [hB, if_true, Option.some.injEq, Prod.mk.injEq] at h
          obtain ⟨rfl, rfl⟩ := h
          simp
        · simp only [Bool.not_eq_true] at hB
          simp only [hB, Bool.false_eq_true, if_false] at h
          by_cases hT : inp.now - ts > 10
          · rw [if_pos hT] at h
            simp only [reset_workflow, Option.some.injEq, Prod.mk.injEq] at h
            obtain ⟨rfl, rfl⟩ := h
            simp
          · rw [if_neg hT] at h
            simp only [Option.some.injEq, Prod.mk.injEq] at h
            obtain ⟨rfl, rfl⟩ := h
            simp
    | VERIFYING =>
      simp only [run_attendance_check] at h
      rw [if_neg (by simp)] at h
      by_cases hT : inp.now - ts > VERIFICATION_DURATION
      · rw [if_pos hT] at h
        simp only [Option.some.injEq, Prod.mk.injEq] at h
        obtain ⟨rfl, rfl⟩ := h
        exact fun _ => hs (by simp)
      · rw [if_neg hT] at h
        simp only [Option.some.injEq, Prod.mk.injEq] at h
        obtain ⟨rfl, rfl⟩ := h
        exact fun _ => hs (by simp)
    | FINAL_SUCCESS =>
      simp only [run_attendance_check] at h
      rw [if_neg (by simp)] at h
      cases hP : pu with
      | none =>
        simp only [hP] at h
        exact absurd h (by simp)
      | some u =>
        simp only [hP, Option.some.injEq, Prod.mk.injEq] at h
        obtain ⟨rfl, rfl⟩ := h
        simp

/-- Under the pending-profile condition the tick never hits the two spots
where the Python code would dereference an absent profile: it always returns
a status tuple. -/
lemma tick_isSome {hasUsers : Bool} {s : SysState} (inp : TickInput)
    (hs : (s.workflow_state = .CHECKING_LIVENESS ∨ s.workflow_state = .VERIFYING ∨
      s.workflow_state = .FINAL_SUCCESS) → s.pending_verification_user.isSome) :
    (run_attendance_check hasUsers s inp).isSome := by
  obtain ⟨ws, bc, ts, pu, sp⟩ := s
  cases hasUsers with
  | false => simp [run_attendance_check]
  | true =>
    cases ws with
    | WAITING_FOR_FACE =>
      simp only [run_attendance_check]
      rw [if_neg (by simp)]
      by_cases hL : inp.landmarksPresent = true
      · simp only [hL, if_true]
        by_cases hF : inp.faceLocated = false
        · rw [if_pos hF]
          simp
        · rw [if_neg hF]
          cases inp.matchedUser <;> simp
      · simp only [Bool.not_eq_true] at hL
        simp [hL]
    | CHECKING_LIVENESS =>
      have hpu : pu.isSome := hs (Or.inl rfl)
      cases pu with
      | none => simp at hpu
      | some u =>
        simp only [run_attendance_check]
        rw [if_neg (by simp)]
        by_cases hB : (check_liveness_internal (earOpt inp) bc).1 = true
        · simp [hB]
        · simp only [Bool.not_eq_true] at hB
          by_cases hT : inp.now - ts > 10
          · simp [hB, hT]
          · simp [hB, hT]
    | VERIFYING =>
      simp only [run_attendance_check]
      rw [if_neg (by simp)]
      by_cases hT : inp.now - ts > VERIFICATION_DURATION
      · simp [hT]
      · simp [hT]
    | FINAL_SUCCESS =>
      have hpu : pu.isSome := hs (Or.inr (Or.inr rfl))
      cases pu with
      | none => simp at hpu
      | some u =>
        simp only [run_attendance_check]
        rw [if_neg (by simp)]
        simp

/-- Claim C9: in every reachable session state, whenever the workflow state
is `CHECKING_LIVENESS`, `VERIFYING`, or `FINAL_SUCCESS` the pending
verification profile is set; consequently the status messages that name the
pending user never dereference an absent profile (every tick from a reachable
state returns a status tuple).  The invariant holds of the reset state and is
preserved by every tick. -/
theorem pending_profile_invariant (s : SysState) (h : Reachable s) :
    ((s.workflow_state = .CHECKING_LIVENESS ∨ s.workflow_state = .VERIFYING ∨
        s.workflow_state = .FINAL_SUCCESS) → s.pending_verification_user.isSome) ∧
      ∀ hasUsers inp, (run_attendance_check hasUsers s inp).isSome := by
  induction h with
  | init t0 =>
    have hinv : ((initialState t0).workflow_state = .CHECKING_LIVENESS ∨
        (initialState t0).workflow_state = .VERIFYING ∨
        (initialState t0).workflow_state = .FINAL_SUCCESS) →
        (initialState t0).pending_verification_user.isSome := by
      intro hw
      rcases hw with hw | hw | hw <;> simp [initialState] at hw
    exact ⟨hinv, fun _ inp => tick_isSome inp hinv⟩
  | tick hasUsers inp hr hstep ih =>
    have hinv := tick_preserves_pending ih.1 hstep
    exact ⟨hinv, fun _ inp' => tick_isSome inp' hinv⟩
  | reset now hr ih =>
    rename_i s0
    have hinv : ((reset_workflow now s0).workflow_state = .CHECKING_LIVENESS ∨
        (reset_workflow now s0).workflow_state = .VERIFYING ∨
        (reset_workflow now s0).workflow_state = .FINAL_SUCCESS) →
        (reset_workflow now s0).pending_verification_user.isSome := by
      intro hw
      rcases hw with hw | hw | hw <;> simp [reset_workflow] at hw
    exact ⟨hinv, fun _ inp' => tick_isSome inp' hinv⟩

/-- Idle tick input: no landmarks, no face, at time 0. -/
def idleI : TickInput := ⟨0, false, false, 0, false, none⟩

/-- Witness for C9: the freshly initialized state is reachable and its tick
returns a status tuple. -/
theorem pending_profile_invariant_witness :
    (run_attendance_check true (initialState 0) idleI).isSome :=
  (pending_profile_invariant (initialState 0) (Reachable.init 0)).2 true idleI
